import Mathlib

/-!
Verification of the chatbot-py core: the failover search dispatcher and
command history (`libs/av/tv_movie/client.py`) and the chat-completion
session pool and worker (`libs/chatgpt/fakeopen/client.py`), shallowly
embedded as pure Lean functions.
-/

namespace TvMovie

/-- Outcome of one `engine.search(task)` call: either it returns an integer
code, or it raises an exception (caught by `_search` and mapped to -500). -/
inductive EngineOutcome where
  | ok (code : Int)
  | err
deriving DecidableEq

/-- The sentinel `Engine.CANCELLED_CODE` (-205) marking cancellation. -/
def CANCELLED_CODE : Int := -205

/-- The code the dispatch loop works with: the engine's return code, with a
raised exception mapped to -500 (`client.py` lines 158-162). -/
def codeOf : EngineOutcome → Int
  | .ok c => c
  | .err => -500

/-- How the `while index < count` loop of `SearchBox._search` exits:
`cancel` is the early `return False` on code -205 (`invoked` = number of
engines called so far), `brk` is the `break` on a positive code (at absolute
position `index`, with the failure count, the engines reported as failures,
and the succeeding engine), `done` is normal exhaustion of the list. -/
inductive LoopOut (α : Type) where
  | cancel (invoked : Nat) (failureReports : List α)
  | brk (index : Nat) (failed : Nat) (failureReports : List α) (agent : α)
  | done (failed : Nat) (failureReports : List α)
deriving DecidableEq

/-- The engine loop of `SearchBox._search` (`client.py` lines 156-175):
walks the remaining engines, carrying the absolute index, the `failed`
counter and the list of engines for which `monitor.report_failure` ran. -/
def searchLoop (run : α → EngineOutcome) : List α → Nat → Nat → List α → LoopOut α
  | [], _, failed, fails => .done failed fails
  | e :: rest, index, failed, fails =>
    let code := codeOf (run e)
    if code > 0 then
      .brk index failed fails e
    else if code = CANCELLED_CODE then
      .cancel (index + 1) fails
    else if code < 0 then
      searchLoop run rest (index + 1) (failed + 1) (fails ++ [e])
    else
      searchLoop run rest (index + 1) failed fails

/-- All observable outcomes of one `_search` dispatch: its return value, the
final engine list, how many engines were invoked, the monitor reports
(success agents, failure agents, crash count) and whether the no-result
responder `_respond_204` ran. -/
structure SearchResult (α : Type) where
  ret : Bool
  engines : List α
  invoked : Nat
  successReports : List α
  failureReports : List α
  crashReports : Nat
  respond204 : Bool
deriving DecidableEq

/-- The promotion step `self.__engines.pop(index)` followed by `self.__engines.insert(0, engine)`
(`client.py` lines 188-189). -/
def promote (l : List α) (i : Nat) : List α :=
  match l.get? i with
  | none => l
  | some e => e :: l.eraseIdx i

/-- The dispatch `SearchBox._search` (`client.py` lines 144-191) as a pure function of the
engine list and of each engine's outcome `run`. -/
def search (run : α → EngineOutcome) (engines : List α) : SearchResult α :=
  if engines.length = 0 then
    ⟨false, engines, 0, [], [], 0, false⟩
  else
    match searchLoop run engines 0 0 [] with
    | .cancel invoked fails =>
        ⟨false, engines, invoked, [], fails, 0, false⟩
    | .brk index failed fails agent =>
        if failed = engines.length then
          ⟨false, engines, index + 1, [agent], fails, 1, decide (index = engines.length)⟩
        else if 0 < index ∧ index < engines.length then
          ⟨true, promote engines index, index + 1, [agent], fails, 0,
            decide (index = engines.length)⟩
        else
          ⟨true, engines, index + 1, [agent], fails, 0, decide (index = engines.length)⟩
    | .done failed fails =>
        if failed = engines.length then
          ⟨false, engines, engines.length, [], fails, 1,
            decide (engines.length = engines.length)⟩
        else
          ⟨true, engines, engines.length, [], fails, 0,
            decide (engines.length = engines.length)⟩

/-- A code on which the dispatch loop moves on to the next engine: neither a
success (`code > 0`) nor the cancellation sentinel. -/
def contCode (c : Int) : Prop := ¬ c > 0 ∧ c ≠ CANCELLED_CODE

instance (c : Int) : Decidable (contCode c) := by
  unfold contCode
  infer_instance

/-- The constant `HistoryManager.MAX_LENGTH` (`client.py` line 250): declared capacity of
the command history. -/
def MAX_LENGTH : Nat := 50

/-- One entry of `HistoryManager.__commands`: the dict built at
`client.py` lines 264-269. Identifiers and times are abstracted to `Nat`. -/
structure HistoryEntry where
  sender : Nat
  group : Option Nat
  time : Nat
  cmd : String
deriving DecidableEq

/-- The method `HistoryManager.add_command` (`client.py` lines 262-269): appends the new
entry to the command list. The source performs no truncation. -/
def add_command (commands : List HistoryEntry) (cmd : String) (time : Nat)
    (sender : Nat) (group : Option Nat) : List HistoryEntry :=
  commands ++ [{ sender := sender, group := group, time := time, cmd := cmd }]

/-- A heap of engine lists (`Nat` references to `List α` objects), modelling
Python list object identity: `SearchClient.__engines`, and each
`SearchBox.__engines`, is a reference into this heap. -/
structure EngineHeap (α : Type) where
  lists : Nat → List α
  next : Nat

/-- A `SearchClient` as far as engine storage is concerned: it holds a
reference to its master engine list. -/
structure SearchClientM where
  enginesRef : Nat

/-- A `SearchBox` as far as engine storage is concerned: it holds a
reference to the engine list it was constructed with. -/
structure SearchBoxM where
  enginesRef : Nat

/-- The factory `SearchClient._new_box` (`client.py` lines 283-290): allocates a fresh
list object `self.__engines.copy()` and hands the new box a reference to
that copy. -/
def new_box (client : SearchClientM) (h : EngineHeap α) : SearchBoxM × EngineHeap α :=
  (⟨h.next⟩,
   ⟨fun r => if r = h.next then h.lists client.enginesRef else h.lists r, h.next + 1⟩)

/-- Running `SearchBox._search` on a box: reads the box's engine list from
the heap and writes back the (possibly promoted) list, since lines 188-189
mutate `self.__engines` in place. -/
def searchBox (run : α → EngineOutcome) (box : SearchBoxM) (h : EngineHeap α) :
    SearchResult α × EngineHeap α :=
  let res := search run (h.lists box.enginesRef)
  (res, ⟨fun r => if r = box.enginesRef then res.engines else h.lists r, h.next⟩)

end TvMovie

namespace FakeOpen

/-- The constant `ChatBox.EXPIRES` (`client.py` line 50): session expiry window, seconds. -/
def EXPIRES : Nat := 36000

/-- A `ChatBox` instance: `id` models Python object identity (boxes from
distinct constructor calls are distinct objects), `expired` is the
`self.__expired` timestamp. Time is modelled as `Nat` seconds. -/
structure ChatBoxM where
  id : Nat
  expired : Nat
deriving DecidableEq

/-- The check `ChatBox.is_expired` (`client.py` lines 58-59): `now > self.__expired`. -/
def ChatBoxM.is_expired (box : ChatBoxM) (now : Nat) : Bool :=
  decide (box.expired < now)

/-- The refresher `ChatBox.__prepare` (`client.py` lines 61-63): refreshes the expiry
timestamp to `time.time() + EXPIRES` and returns `True`. -/
def ChatBoxM.prepare (box : ChatBoxM) (now : Nat) : ChatBoxM × Bool :=
  ({ box with expired := now + EXPIRES }, true)

/-- Outcome of the delegated backend call `FakeOpen.ask`: an answer string,
no answer (`None`), or a raised exception. -/
inductive Backend where
  | answer (text : String)
  | noAnswer
  | raisesFault
deriving DecidableEq

/-- The method `ChatBox.ask` (`client.py` lines 65-67): runs `__prepare` first (which
always refreshes the expiry and returns `True`), then delegates to the
backend; a backend exception propagates (`Except.error`). -/
def ChatBoxM.ask (box : ChatBoxM) (now : Nat) (backend : Backend) :
    ChatBoxM × Except Unit (Option String) :=
  let p := box.prepare now
  if p.2 then
    (p.1,
     match backend with
     | .answer t => .ok (some t)
     | .noAnswer => .ok none
     | .raisesFault => .error ())
  else
    (p.1, .ok none)

/-- The `ChatBoxPool` state (`client.py` lines 70-77): `userMap` is the
`WeakValueDictionary` (user id to box id), `boxes` the strong set
`self.__boxes`, `nextPurgeTime` the purge deadline, `nextBoxId` a fresh
object-identity source. -/
structure ChatBoxPoolM where
  userMap : Nat → Option Nat
  boxes : List ChatBoxM
  nextPurgeTime : Nat
  nextBoxId : Nat

/-- Weak-dictionary lookup: `self.__map.get(identifier)` yields the box only
while it is still strongly referenced, i.e. while the box with that id is in
`boxes` (the pool's `liveSet` holds the only strong reference). -/
def lookupLive (p : ChatBoxPoolM) (user : Nat) : Option ChatBoxM :=
  match p.userMap user with
  | none => none
  | some bid => p.boxes.find? (fun b => b.id = bid)

/-- The factory `ChatBoxPool.__new_box` (`client.py` lines 79-82): constructs a fresh
`ChatBox`, whose `__init__` sets `expired = time.time() + EXPIRES`. The
constructor always yields an instance. -/
def pool_new_box (bid now : Nat) : Option ChatBoxM :=
  some { id := bid, expired := now + EXPIRES }

/-- The lookup `ChatBoxPool.get_box` (`client.py` lines 84-92): look the user up in the
weak map; on a miss construct a new box and insert it into both the map and
the live set. No expiry check happens on lookup. -/
def get_box (p : ChatBoxPoolM) (user : Nat) (now : Nat) :
    Option ChatBoxM × ChatBoxPoolM :=
  match lookupLive p user with
  | some box => (some box, p)
  | none =>
    match pool_new_box p.nextBoxId now with
    | none => (none, p)
    | some box =>
        (some box,
         { userMap := fun u => if u = user then some box.id else p.userMap u,
           boxes := box :: p.boxes,
           nextPurgeTime := p.nextPurgeTime,
           nextBoxId := p.nextBoxId + 1 })

/-- The sweep `ChatBoxPool.purge` (`client.py` lines 94-106): skip (returning `False`)
while `now < next_purge_time`; otherwise set the deadline to `now + 60` and
drop every expired box from the live set, returning `True`. -/
def purge (p : ChatBoxPoolM) (now : Nat) : Bool × ChatBoxPoolM :=
  if now < p.nextPurgeTime then
    (false, p)
  else
    (true,
     { p with
       nextPurgeTime := now + 60,
       boxes := p.boxes.filter (fun b => !(b.is_expired now)) })

/-- One queued chat request: the `ChatRequest` fields built by
`ChatClient.request` (`client.py` lines 122-125). User ids are `Nat`. -/
structure ChatTaskM where
  question : String
  identifier : Nat
deriving DecidableEq

/-- The `ChatClient` state: the pending task queue and the box pool. -/
structure ChatClientM where
  taskQueue : List ChatTaskM
  boxPool : ChatBoxPoolM

/-- Modelled from the spec: `ChatTaskPool` (imported from `..chat`, not under
`src/`) is an unbounded FIFO queue with `add_task` appending at the tail.
`ChatClient.request` (`client.py` lines 122-125) wraps the question and user
into a task and enqueues it. -/
def request (c : ChatClientM) (question : String) (identifier : Nat) : ChatClientM :=
  { c with taskQueue := c.taskQueue ++ [{ question := question, identifier := identifier }] }

/-- The fixed fallback payload of `ChatClient.process` (`client.py` line 147). -/
def FALLBACK : String :=
  "\x7b\"code\": 404, \"error\": \"No response, please try again later.\"\x7d"

/-- Writes the refreshed box back into the live set, modelling that
`ChatBox.ask` mutates the box object in place (shared by the set and the
weak map). -/
def updateBox (p : ChatBoxPoolM) (box : ChatBoxM) : ChatBoxPoolM :=
  { p with boxes := p.boxes.map (fun b => if b.id = box.id then box else b) }

/-- Result of one `ChatClient.process` iteration: its boolean return, the
new client state, and the callback invocations it performed (modelled from
the spec: `ChatTask.chat_response`, outside `src/`, invokes the task's
callback with the answer). -/
structure ProcessOut where
  didWork : Bool
  client : ChatClientM
  callbacks : List (ChatTaskM × String)

/-- The task-handling path of `ChatClient.process` (`client.py` lines
134-150): resolve the user's box (dropping the task without a callback when
none comes back, line 141-143), ask it the question, substitute the fallback
payload when no answer came (lines 145-147), and fire the callback (line
149, modelled from the spec: `ChatTask.chat_response`, outside `src/`,
invokes the task's callback with the answer). A backend exception escapes
(`Except.error`). -/
def processTask (bp : ChatBoxPoolM) (now : Nat) (backend : Nat → String → Backend)
    (task : ChatTaskM) (rest : List ChatTaskM) : Except Unit ProcessOut :=
  match get_box bp task.identifier now with
  | (none, pool) => .ok ⟨false, ⟨rest, pool⟩, []⟩
  | (some box, pool) =>
      match (ChatBoxM.ask box now (backend box.id task.question)).2 with
      | .error _ => .error ()
      | .ok ans =>
          .ok ⟨true, ⟨rest, updateBox pool (ChatBoxM.ask box now (backend box.id task.question)).1⟩,
            [(task, match ans with | none => FALLBACK | some a => a)]⟩

/-- The worker step `ChatClient.process` (`client.py` lines 128-150): pop a task (modelled
from the spec: `ChatTaskPool.pop_task`, outside `src/`, takes the FIFO
head); when the queue is empty purge the pool and report no work; otherwise
handle the task via `processTask`. -/
def process (c : ChatClientM) (now : Nat) (backend : Nat → String → Backend) :
    Except Unit ProcessOut :=
  match c.taskQueue with
  | [] => .ok ⟨false, ⟨[], (purge c.boxPool now).2⟩, []⟩
  | task :: rest => processTask c.boxPool now backend task rest

/-- The string `process` hands the callback for a given backend outcome:
the backend's answer when one is returned, the fallback payload otherwise. -/
def answerFor : Backend → String
  | .answer t => t
  | _ => FALLBACK

end FakeOpen



namespace TvMovie

theorem searchLoop_brk_of_success (run : α → EngineOutcome) :
    ∀ (l : List α) (i : Nat) (h : i < l.length),
      (∀ j (hj : j < i), contCode (codeOf (run (l.get ⟨j, Nat.lt_trans hj h⟩)))) →
      codeOf (run (l.get ⟨i, h⟩)) > 0 →
      ∀ (n f : Nat) (fl : List α),
        ∃ f' fl', searchLoop run l n f fl = .brk (n + i) f' fl' (l.get ⟨i, h⟩) ∧ f' ≤ f + i := by
  intro l
  induction l with
  | nil => intro i h; exact absurd h (Nat.not_lt_zero i)
  | cons e rest ih =>
    intro i h hpre hsucc n f fl
    cases i with
    | zero =>
      refine ⟨f, fl, ?_, Nat.le_refl _⟩
      have he : codeOf (run e) > 0 := hsucc
      simp [searchLoop, he]
    | succ i' =>
      obtain ⟨hng0, hnc0⟩ := hpre 0 (Nat.succ_pos i')
      have hng : ¬ codeOf (run e) > 0 := hng0
      have hnc : codeOf (run e) ≠ CANCELLED_CODE := hnc0
      have hrest : i' < rest.length := Nat.lt_of_succ_lt_succ h
      have hpre' : ∀ j (hj : j < i'),
          contCode (codeOf (run (rest.get ⟨j, Nat.lt_trans hj hrest⟩))) := by
        intro j hj
        exact hpre (j + 1) (Nat.succ_lt_succ hj)
      have hsucc' : codeOf (run (rest.get ⟨i', hrest⟩)) > 0 := hsucc
      by_cases hneg : codeOf (run e) < 0
      · obtain ⟨f', fl', heq, hle⟩ := ih i' hrest hpre' hsucc' (n + 1) (f + 1) (fl ++ [e])
        refine ⟨f', fl', ?_, by omega⟩
        simp only [searchLoop]
        rw [if_neg hng, if_neg hnc, if_pos hneg, heq]
        have : n + 1 + i' = n + (i' + 1) := by omega
        rw [this]
        rfl
      · obtain ⟨f', fl', heq, hle⟩ := ih i' hrest hpre' hsucc' (n + 1) f fl
        refine ⟨f', fl', ?_, by omega⟩
        simp only [searchLoop]
        rw [if_neg hng, if_neg hnc, if_neg hneg, heq]
        have : n + 1 + i' = n + (i' + 1) := by omega
        rw [this]
        rfl

theorem searchLoop_cancel_of (run : α → EngineOutcome) :
    ∀ (l : List α) (i : Nat) (h : i < l.length),
      (∀ j (hj : j < i), contCode (codeOf (run (l.get ⟨j, Nat.lt_trans hj h⟩)))) →
      codeOf (run (l.get ⟨i, h⟩)) = CANCELLED_CODE →
      ∀ (n f : Nat) (fl : List α),
        ∃ fl', searchLoop run l n f fl = .cancel (n + i + 1) fl' ∧
          fl'.length ≤ fl.length + i := by
  intro l
  induction l with
  | nil => intro i h; exact absurd h (Nat.not_lt_zero i)
  | cons e rest ih =>
    intro i h hpre hcanc n f fl
    cases i with
    | zero =>
      refine ⟨fl, ?_, Nat.le_refl _⟩
      have he : codeOf (run e) = CANCELLED_CODE := hcanc
      have hng : ¬ codeOf (run e) > 0 := by rw [he]; decide
      simp only [searchLoop]
      rw [if_neg hng, if_pos he]
    | succ i' =>
      obtain ⟨hng0, hnc0⟩ := hpre 0 (Nat.succ_pos i')
      have hng : ¬ codeOf (run e) > 0 := hng0
      have hnc : codeOf (run e) ≠ CANCELLED_CODE := hnc0
      have hrest : i' < rest.length := Nat.lt_of_succ_lt_succ h
      have hpre' : ∀ j (hj : j < i'),
          contCode (codeOf (run (rest.get ⟨j, Nat.lt_trans hj hrest⟩))) := by
        intro j hj
        exact hpre (j + 1) (Nat.succ_lt_succ hj)
      have hcanc' : codeOf (run (rest.get ⟨i', hrest⟩)) = CANCELLED_CODE := hcanc
      by_cases hneg : codeOf (run e) < 0
      · obtain ⟨fl', heq, hle⟩ := ih i' hrest hpre' hcanc' (n + 1) (f + 1) (fl ++ [e])
        refine ⟨fl', ?_, ?_⟩
        · simp only [searchLoop]
          rw [if_neg hng, if_neg hnc, if_pos hneg, heq]
          have : n + 1 + i' + 1 = n + (i' + 1) + 1 := by omega
          rw [this]
        · simp at hle
          omega
      · obtain ⟨fl', heq, hle⟩ := ih i' hrest hpre' hcanc' (n + 1) f fl
        refine ⟨fl', ?_, by omega⟩
        simp only [searchLoop]
        rw [if_neg hng, if_neg hnc, if_neg hneg, heq]
        have : n + 1 + i' + 1 = n + (i' + 1) + 1 := by omega
        rw [this]

theorem searchLoop_done_all_neg (run : α → EngineOutcome) :
    ∀ (l : List α) (n f : Nat) (fl : List α),
      (∀ e ∈ l, codeOf (run e) < 0 ∧ codeOf (run e) ≠ CANCELLED_CODE) →
      searchLoop run l n f fl = .done (f + l.length) (fl ++ l) := by
  intro l
  induction l with
  | nil => intro n f fl _; simp [searchLoop]
  | cons e rest ih =>
    intro n f fl hall
    obtain ⟨hneg, hnc⟩ := hall e (List.mem_cons_self e rest)
    have hng : ¬ codeOf (run e) > 0 := by omega
    have hall' : ∀ x ∈ rest, codeOf (run x) < 0 ∧ codeOf (run x) ≠ CANCELLED_CODE := by
      intro x hx
      exact hall x (List.mem_cons_of_mem e hx)
    simp only [searchLoop]
    rw [if_neg hng, if_neg hnc, if_pos hneg, ih (n + 1) (f + 1) (fl ++ [e]) hall']
    have h1 : f + 1 + rest.length = f + (e :: rest).length := by simp; omega
    have h2 : fl ++ [e] ++ rest = fl ++ e :: rest := by simp
    rw [h1, h2]

theorem searchLoop_done_of_no_success (run : α → EngineOutcome) :
    ∀ (l : List α) (n f : Nat) (fl : List α),
      (∀ e ∈ l, contCode (codeOf (run e))) →
      ∃ f' fl', searchLoop run l n f fl = .done f' fl' := by
  intro l
  induction l with
  | nil => intro n f fl _; exact ⟨f, fl, rfl⟩
  | cons e rest ih =>
    intro n f fl hall
    obtain ⟨hng, hnc⟩ := hall e (List.mem_cons_self e rest)
    have hall' : ∀ x ∈ rest, contCode (codeOf (run x)) := by
      intro x hx
      exact hall x (List.mem_cons_of_mem e hx)
    by_cases hneg : codeOf (run e) < 0
    · obtain ⟨f', fl', heq⟩ := ih (n + 1) (f + 1) (fl ++ [e]) hall'
      refine ⟨f', fl', ?_⟩
      simp only [searchLoop]
      rw [if_neg hng, if_neg hnc, if_pos hneg, heq]
    · obtain ⟨f', fl', heq⟩ := ih (n + 1) f fl hall'
      refine ⟨f', fl', ?_⟩
      simp only [searchLoop]
      rw [if_neg hng, if_neg hnc, if_neg hneg, heq]

end TvMovie

namespace TvMovie

theorem search_eq_of_brk (run : α → EngineOutcome) (engines : List α)
    (index f : Nat) (fl : List α) (agent : α)
    (hlen : ¬ engines.length = 0)
    (hloop : searchLoop run engines 0 0 [] = .brk index f fl agent)
    (hf : ¬ f = engines.length) (hidx : index < engines.length) :
    search run engines =
      if 0 < index then
        ⟨true, promote engines index, index + 1, [agent], fl, 0,
          decide (index = engines.length)⟩
      else
        ⟨true, engines, index + 1, [agent], fl, 0, decide (index = engines.length)⟩ := by
  unfold search
  rw [if_neg hlen, hloop]
  simp only
  rw [if_neg hf]
  by_cases h0 : 0 < index
  · rw [if_pos ⟨h0, hidx⟩, if_pos h0]
  · rw [if_neg (fun hc => h0 hc.1), if_neg h0]

theorem search_eq_of_cancel (run : α → EngineOutcome) (engines : List α)
    (k : Nat) (fl : List α)
    (hlen : ¬ engines.length = 0)
    (hloop : searchLoop run engines 0 0 [] = .cancel k fl) :
    search run engines = ⟨false, engines, k, [], fl, 0, false⟩ := by
  unfold search
  rw [if_neg hlen, hloop]

theorem search_eq_of_done (run : α → EngineOutcome) (engines : List α)
    (f : Nat) (fl : List α)
    (hlen : ¬ engines.length = 0)
    (hloop : searchLoop run engines 0 0 [] = .done f fl) :
    search run engines =
      if f = engines.length then
        ⟨false, engines, engines.length, [], fl, 1, true⟩
      else
        ⟨true, engines, engines.length, [], fl, 0, true⟩ := by
  unfold search
  rw [if_neg hlen, hloop]
  simp

/-- Claim C1 (code bug evidence): `HistoryManager.add_command` appends
without ever evicting, so 51 consecutive calls leave 51 stored entries,
exceeding the declared capacity `MAX_LENGTH = 50`. -/
theorem add_command_unbounded :
    (List.foldl (fun h n => add_command h ("query") n 0 none) [] (List.range 51)).length = 51 ∧
    MAX_LENGTH < 51 := by
  constructor
  · rfl
  · decide

/-- Claim C2: in a dispatch over a non-empty engine list in which success
(`code > 0`) occurs exactly at index `i` (every earlier engine returns a
code that is neither a success nor the cancellation sentinel), the final
engine list is the successful engine followed by all other engines in their
previous relative order; when `i = 0` the list is unchanged. -/
theorem search_promotes_success (run : α → EngineOutcome) (engines : List α) (i : Nat)
    (h : i < engines.length)
    (hpre : ∀ j (hj : j < i), contCode (codeOf (run (engines.get ⟨j, Nat.lt_trans hj h⟩))))
    (hsucc : codeOf (run (engines.get ⟨i, h⟩)) > 0) :
    (search run engines).engines = engines.get ⟨i, h⟩ :: engines.eraseIdx i ∧
    (i = 0 → (search run engines).engines = engines) := by
  obtain ⟨f', fl', hloop, hle⟩ := searchLoop_brk_of_success run engines i h hpre hsucc 0 0 []
  rw [Nat.zero_add] at hloop
  have hlen : ¬ engines.length = 0 := by omega
  have hf : ¬ f' = engines.length := by omega
  have hser := search_eq_of_brk run engines i f' fl' (engines.get ⟨i, h⟩) hlen hloop hf h
  have hprom : promote engines i = engines.get ⟨i, h⟩ :: engines.eraseIdx i := by
    unfold promote
    rw [List.get?_eq_get h]
  by_cases h0 : 0 < i
  · rw [if_pos h0] at hser
    rw [hser]
    refine ⟨hprom, ?_⟩
    intro hi
    omega
  · rw [if_neg h0] at hser
    have hi : i = 0 := by omega
    subst hi
    rw [hser]
    cases engines with
    | nil => simp at h
    | cons a as => exact ⟨rfl, fun _ => rfl⟩

/-- Witness for C2: engines `[10, 20]` where engine 10 returns -404 and
engine 20 returns 200; after the dispatch the list is `[20, 10]`. -/
theorem search_promotes_success_witness :
    (search (fun e : Nat => if e = 10 then EngineOutcome.ok (-404) else EngineOutcome.ok 200)
      [10, 20]).engines = [20, 10] := by
  have h2 : (1 : Nat) < ([10, 20] : List Nat).length := by decide
  have hpre : ∀ j (hj : j < 1),
      contCode (codeOf
        ((fun e : Nat => if e = 10 then EngineOutcome.ok (-404) else EngineOutcome.ok 200)
          (([10, 20] : List Nat).get ⟨j, Nat.lt_trans hj h2⟩))) := by
    intro j hj
    have hj0 : j = 0 := by omega
    subst hj0
    exact (by decide : contCode (-404 : Int))
  have hsucc : codeOf
      ((fun e : Nat => if e = 10 then EngineOutcome.ok (-404) else EngineOutcome.ok 200)
        (([10, 20] : List Nat).get ⟨1, h2⟩)) > 0 :=
    (by decide : (200 : Int) > 0)
  have hmain := (search_promotes_success
      (fun e : Nat => if e = 10 then EngineOutcome.ok (-404) else EngineOutcome.ok 200)
      [10, 20] 1 h2 hpre hsucc).1
  exact hmain.trans rfl

/-- Claim C3: if the engine at index `i` returns the cancellation sentinel
-205 (and every earlier engine neither succeeded nor cancelled), the
dispatch returns false, exactly the engines up to and including index `i`
were invoked, the engine order is untouched, no crash is reported, no
success is reported, and no failure report stems from the cancellation
event itself (at most one failure report per earlier engine). -/
theorem search_cancel_aborts (run : α → EngineOutcome) (engines : List α) (i : Nat)
    (h : i < engines.length)
    (hpre : ∀ j (hj : j < i), contCode (codeOf (run (engines.get ⟨j, Nat.lt_trans hj h⟩))))
    (hcanc : codeOf (run (engines.get ⟨i, h⟩)) = CANCELLED_CODE) :
    (search run engines).ret = false ∧
    (search run engines).invoked = i + 1 ∧
    (search run engines).engines = engines ∧
    (search run engines).crashReports = 0 ∧
    (search run engines).successReports = [] ∧
    (search run engines).failureReports.length ≤ i := by
  obtain ⟨fl', hloop, hlenfl⟩ := searchLoop_cancel_of run engines i h hpre hcanc 0 0 []
  rw [Nat.zero_add] at hloop
  have hlen : ¬ engines.length = 0 := by omega
  have hser := search_eq_of_cancel run engines (i + 1) fl' hlen hloop
  rw [hser]
  refine ⟨rfl, rfl, rfl, rfl, rfl, ?_⟩
  simpa using hlenfl

/-- Witness for C3: engines `[10, 20]` where engine 10 returns -404 and
engine 20 returns the sentinel -205. -/
theorem search_cancel_aborts_witness :
    (search (fun e : Nat => if e = 10 then EngineOutcome.ok (-404) else EngineOutcome.ok (-205))
      [10, 20]).ret = false ∧
    (search (fun e : Nat => if e = 10 then EngineOutcome.ok (-404) else EngineOutcome.ok (-205))
      [10, 20]).invoked = 1 + 1 ∧
    (search (fun e : Nat => if e = 10 then EngineOutcome.ok (-404) else EngineOutcome.ok (-205))
      [10, 20]).engines = [10, 20] ∧
    (search (fun e : Nat => if e = 10 then EngineOutcome.ok (-404) else EngineOutcome.ok (-205))
      [10, 20]).crashReports = 0 ∧
    (search (fun e : Nat => if e = 10 then EngineOutcome.ok (-404) else EngineOutcome.ok (-205))
      [10, 20]).successReports = [] ∧
    (search (fun e : Nat => if e = 10 then EngineOutcome.ok (-404) else EngineOutcome.ok (-205))
      [10, 20]).failureReports.length ≤ 1 := by
  have h2 : (1 : Nat) < ([10, 20] : List Nat).length := by decide
  have hpre : ∀ j (hj : j < 1),
      contCode (codeOf
        ((fun e : Nat => if e = 10 then EngineOutcome.ok (-404) else EngineOutcome.ok (-205))
          (([10, 20] : List Nat).get ⟨j, Nat.lt_trans hj h2⟩))) := by
    intro j hj
    have hj0 : j = 0 := by omega
    subst hj0
    exact (by decide : contCode (-404 : Int))
  have hcanc : codeOf
      ((fun e : Nat => if e = 10 then EngineOutcome.ok (-404) else EngineOutcome.ok (-205))
        (([10, 20] : List Nat).get ⟨1, h2⟩)) = CANCELLED_CODE :=
    (by decide : (-205 : Int) = CANCELLED_CODE)
  exact search_cancel_aborts
    (fun e : Nat => if e = 10 then EngineOutcome.ok (-404) else EngineOutcome.ok (-205))
    [10, 20] 1 h2 hpre hcanc

/-- Claim C4: if every engine of a non-empty list returns a negative,
non-cancellation code (a raised exception counting as -500), the dispatch
returns false and reports exactly one crash. -/
theorem search_all_fail_crash (run : α → EngineOutcome) (engines : List α)
    (hne : engines ≠ [])
    (hall : ∀ e ∈ engines, codeOf (run e) < 0 ∧ codeOf (run e) ≠ CANCELLED_CODE) :
    (search run engines).ret = false ∧ (search run engines).crashReports = 1 := by
  have hloop := searchLoop_done_all_neg run engines 0 0 [] hall
  rw [Nat.zero_add, List.nil_append] at hloop
  have hlen : ¬ engines.length = 0 := by
    cases engines with
    | nil => exact absurd rfl hne
    | cons a as => simp
  have hser := search_eq_of_done run engines engines.length engines hlen hloop
  rw [if_pos rfl] at hser
  rw [hser]
  exact ⟨rfl, rfl⟩

/-- Witness for C4: engines `[10, 20]` where engine 10 returns -404 and
engine 20 raises (mapped to -500). -/
theorem search_all_fail_crash_witness :
    (search (fun e : Nat => if e = 10 then EngineOutcome.ok (-404) else EngineOutcome.err)
      [10, 20]).ret = false ∧
    (search (fun e : Nat => if e = 10 then EngineOutcome.ok (-404) else EngineOutcome.err)
      [10, 20]).crashReports = 1 :=
  search_all_fail_crash
    (fun e : Nat => if e = 10 then EngineOutcome.ok (-404) else EngineOutcome.err)
    [10, 20] (by decide) (by decide)

/-- Claim C5: if the loop runs over the whole non-empty engine list without
any success and without observing cancellation, the no-result responder
`_respond_204` is triggered, whatever the number of failure codes. -/
theorem search_exhausted_responds (run : α → EngineOutcome) (engines : List α)
    (hne : engines ≠ [])
    (hall : ∀ e ∈ engines, contCode (codeOf (run e))) :
    (search run engines).respond204 = true := by
  obtain ⟨f', fl', hloop⟩ := searchLoop_done_of_no_success run engines 0 0 [] hall
  have hlen : ¬ engines.length = 0 := by
    cases engines with
    | nil => exact absurd rfl hne
    | cons a as => simp
  have hser := search_eq_of_done run engines f' fl' hlen hloop
  rw [hser]
  split
  · rfl
  · rfl

/-- Witness for C5: engines `[10, 20]` where engine 10 returns 0 (neither
success nor failure) and engine 20 returns -404; the responder fires. -/
theorem search_exhausted_responds_witness :
    (search (fun e : Nat => if e = 10 then EngineOutcome.ok 0 else EngineOutcome.ok (-404))
      [10, 20]).respond204 = true :=
  search_exhausted_responds
    (fun e : Nat => if e = 10 then EngineOutcome.ok 0 else EngineOutcome.ok (-404))
    [10, 20] (by decide) (by decide)

end TvMovie

namespace TvMovie

/-- Claim C10: `_new_box` hands every box its own copy of the client's
engine list: the fresh reference is distinct from the client's, holds the
same engines at creation, and a dispatch through the box rewrites only the
box's own list — every other heap reference, the client's master list
included, is unchanged. -/
theorem new_box_private_engines (client : SearchClientM) (h : EngineHeap α)
    (hv : client.enginesRef < h.next) (run : α → EngineOutcome) :
    (new_box client h).1.enginesRef ≠ client.enginesRef ∧
    (new_box client h).2.lists (new_box client h).1.enginesRef = h.lists client.enginesRef ∧
    (∀ r, r ≠ (new_box client h).1.enginesRef →
      (searchBox run (new_box client h).1 (new_box client h).2).2.lists r
        = (new_box client h).2.lists r) ∧
    (searchBox run (new_box client h).1 (new_box client h).2).2.lists client.enginesRef
      = h.lists client.enginesRef := by
  have hne : ¬ client.enginesRef = h.next := by omega
  refine ⟨?_, ?_, ?_, ?_⟩
  · show h.next ≠ client.enginesRef
    omega
  · show (if h.next = h.next then h.lists client.enginesRef else h.lists h.next)
      = h.lists client.enginesRef
    rw [if_pos rfl]
  · intro r hr
    replace hr : ¬ r = h.next := hr
    show (if r = h.next then _ else (if r = h.next then h.lists client.enginesRef else h.lists r))
      = (if r = h.next then h.lists client.enginesRef else h.lists r)
    rw [if_neg hr]
  · show (if client.enginesRef = h.next then _
        else (if client.enginesRef = h.next then h.lists client.enginesRef
              else h.lists client.enginesRef))
      = h.lists client.enginesRef
    rw [if_neg hne, if_neg hne]

/-- Witness for C10: a heap whose single list `[7]` is the client's master
list; the box gets reference 1, and a successful dispatch leaves reference 0
(the master) untouched. -/
theorem new_box_private_engines_witness :
    (new_box (⟨0⟩ : SearchClientM) (⟨fun _ => [7], 1⟩ : EngineHeap Nat)).1.enginesRef ≠
      (⟨0⟩ : SearchClientM).enginesRef ∧
    (new_box (⟨0⟩ : SearchClientM) (⟨fun _ => [7], 1⟩ : EngineHeap Nat)).2.lists
        (new_box (⟨0⟩ : SearchClientM) (⟨fun _ => [7], 1⟩ : EngineHeap Nat)).1.enginesRef
      = (⟨fun _ => [7], 1⟩ : EngineHeap Nat).lists (⟨0⟩ : SearchClientM).enginesRef ∧
    (∀ r, r ≠ (new_box (⟨0⟩ : SearchClientM) (⟨fun _ => [7], 1⟩ : EngineHeap Nat)).1.enginesRef →
      (searchBox (fun _ => EngineOutcome.ok 1)
          (new_box (⟨0⟩ : SearchClientM) (⟨fun _ => [7], 1⟩ : EngineHeap Nat)).1
          (new_box (⟨0⟩ : SearchClientM) (⟨fun _ => [7], 1⟩ : EngineHeap Nat)).2).2.lists r
        = (new_box (⟨0⟩ : SearchClientM) (⟨fun _ => [7], 1⟩ : EngineHeap Nat)).2.lists r) ∧
    (searchBox (fun _ => EngineOutcome.ok 1)
        (new_box (⟨0⟩ : SearchClientM) (⟨fun _ => [7], 1⟩ : EngineHeap Nat)).1
        (new_box (⟨0⟩ : SearchClientM) (⟨fun _ => [7], 1⟩ : EngineHeap Nat)).2).2.lists
        (⟨0⟩ : SearchClientM).enginesRef
      = (⟨fun _ => [7], 1⟩ : EngineHeap Nat).lists (⟨0⟩ : SearchClientM).enginesRef :=
  new_box_private_engines ⟨0⟩ ⟨fun _ => [7], 1⟩ (by decide) (fun _ => EngineOutcome.ok 1)

end TvMovie

namespace FakeOpen

/-- Claim C8: `ChatBox.ask` always refreshes the box's expiry timestamp to
`now + EXPIRES` (36000 s), whatever the delegated backend call does —
answer, no answer, or raised exception. -/
theorem ask_refreshes_expiry (box : ChatBoxM) (now : Nat) (backend : Backend) :
    ((box.ask now backend).1).expired = now + EXPIRES := by
  cases backend <;> rfl

/-- Claim C7: an eligible `purge` (deadline reached) returns true, advances
the deadline to `now + 60` and removes exactly the boxes whose expiry has
passed; a second call within 60 seconds of it is skipped with the state
unchanged; in general any call made before the deadline returns false and
performs no removals. -/
theorem purge_rate_limited (p q : ChatBoxPoolM) (now now2 now3 : Nat)
    (h1 : p.nextPurgeTime ≤ now) (h2 : now2 < now + 60) (hq : now3 < q.nextPurgeTime) :
    (purge p now).1 = true ∧
    (purge p now).2.nextPurgeTime = now + 60 ∧
    (purge p now).2.boxes = p.boxes.filter (fun b => !(b.is_expired now)) ∧
    purge (purge p now).2 now2 = (false, (purge p now).2) ∧
    purge q now3 = (false, q) := by
  have hn : ¬ now < p.nextPurgeTime := by omega
  have hstep : purge p now =
      (true,
       { p with
         nextPurgeTime := now + 60,
         boxes := p.boxes.filter (fun b => !(b.is_expired now)) }) := by
    unfold purge
    rw [if_neg hn]
  have hskip : ∀ r : ChatBoxPoolM, ∀ m : Nat, m < r.nextPurgeTime → purge r m = (false, r) := by
    intro r m hm
    unfold purge
    rw [if_pos hm]
  rw [hstep]
  exact ⟨rfl, rfl, rfl, hskip _ now2 h2, hskip q now3 hq⟩

/-- Witness for C7: a pool with deadline 0 holding an expired box (expiry 5)
and a live one (expiry 100); purging at time 50 keeps only the live box,
and a repeat call at time 90 is skipped. -/
theorem purge_rate_limited_witness :
    (purge ⟨fun _ => none, [⟨0, 5⟩, ⟨1, 100⟩], 0, 2⟩ 50).1 = true ∧
    (purge ⟨fun _ => none, [⟨0, 5⟩, ⟨1, 100⟩], 0, 2⟩ 50).2.nextPurgeTime = 50 + 60 ∧
    (purge ⟨fun _ => none, [⟨0, 5⟩, ⟨1, 100⟩], 0, 2⟩ 50).2.boxes
      = ([⟨0, 5⟩, ⟨1, 100⟩] : List ChatBoxM).filter (fun b => !(b.is_expired 50)) ∧
    purge (purge ⟨fun _ => none, [⟨0, 5⟩, ⟨1, 100⟩], 0, 2⟩ 50).2 90
      = (false, (purge ⟨fun _ => none, [⟨0, 5⟩, ⟨1, 100⟩], 0, 2⟩ 50).2) ∧
    purge ⟨fun _ => none, [⟨0, 5⟩, ⟨1, 100⟩], 7, 2⟩ 3
      = (false, ⟨fun _ => none, [⟨0, 5⟩, ⟨1, 100⟩], 7, 2⟩) :=
  purge_rate_limited ⟨fun _ => none, [⟨0, 5⟩, ⟨1, 100⟩], 0, 2⟩
    ⟨fun _ => none, [⟨0, 5⟩, ⟨1, 100⟩], 7, 2⟩ 50 90 3
    (by decide) (by decide) (by decide)

end FakeOpen

namespace FakeOpen

theorem get_box_some (p : ChatBoxPoolM) (user now : Nat) :
    ∃ box pool, get_box p user now = (some box, pool) := by
  unfold get_box
  cases hl : lookupLive p user with
  | none => exact ⟨_, _, rfl⟩
  | some b => exact ⟨b, p, rfl⟩

/-- Claim C6: `process` on a non-empty queue fires the popped task's
callback exactly once — with the backend's answer when one is returned,
with the fixed fallback payload when the session yields no answer — and
pops exactly that task; the resolved box lookup always succeeds
(`get_box_some`), so an accepted task is never silently dropped. -/
theorem process_callback_once (c : ChatClientM) (now : Nat)
    (backend : Nat → String → Backend) (task : ChatTaskM) (rest : List ChatTaskM)
    (box : ChatBoxM) (pool : ChatBoxPoolM)
    (hq : c.taskQueue = task :: rest)
    (hgb : get_box c.boxPool task.identifier now = (some box, pool))
    (hnf : backend box.id task.question ≠ Backend.raisesFault) :
    process c now backend =
      Except.ok ⟨true,
        ⟨rest, updateBox pool (ChatBoxM.ask box now (backend box.id task.question)).1⟩,
        [(task, answerFor (backend box.id task.question))]⟩ := by
  obtain ⟨tq, bp⟩ := c
  replace hq : tq = task :: rest := hq
  subst hq
  replace hgb : get_box bp task.identifier now = (some box, pool) := hgb
  show processTask bp now backend task rest = _
  unfold processTask
  rw [hgb]
  show (match (ChatBoxM.ask box now (backend box.id task.question)).2 with
        | .error _ => (Except.error () : Except Unit ProcessOut)
        | .ok ans =>
            Except.ok ⟨true,
              ⟨rest, updateBox pool (ChatBoxM.ask box now (backend box.id task.question)).1⟩,
              [(task, match ans with | none => FALLBACK | some a => a)]⟩)
      = Except.ok ⟨true,
          ⟨rest, updateBox pool (ChatBoxM.ask box now (backend box.id task.question)).1⟩,
          [(task, answerFor (backend box.id task.question))]⟩
  cases hbk : backend box.id task.question with
  | answer t => rfl
  | noAnswer => rfl
  | raisesFault => exact absurd hbk hnf

/-- Witness for C6: one queued task from user 1 on an empty pool, a backend
that yields no answer; the callback fires once with the fallback payload. -/
theorem process_callback_once_witness :
    process ⟨[⟨"hi", 1⟩], ⟨fun _ => none, [], 0, 0⟩⟩ 0 (fun _ _ => Backend.noAnswer)
      = Except.ok ⟨true,
          ⟨[], updateBox ⟨fun u => if u = 1 then some 0 else none, [⟨0, 36000⟩], 0, 1⟩
                (ChatBoxM.ask ⟨0, 36000⟩ 0 Backend.noAnswer).1⟩,
          [(⟨"hi", 1⟩, FALLBACK)]⟩ :=
  process_callback_once ⟨[⟨"hi", 1⟩], ⟨fun _ => none, [], 0, 0⟩⟩ 0
    (fun _ _ => Backend.noAnswer) ⟨"hi", 1⟩ []
    ⟨0, 36000⟩ ⟨fun u => if u = 1 then some 0 else none, [⟨0, 36000⟩], 0, 1⟩
    rfl rfl (fun hcontra => Backend.noConfusion hcontra)

end FakeOpen

namespace FakeOpen

/-- Claim C9: when `user` is absent, `get_box` constructs a fresh box and
caches it; a second `get_box` at any later time returns the very same box
with the pool unchanged (no expiry check, no new construction); once the
box's expiry has passed and an eligible purge has swept it from the live
set, a further `get_box` for that user constructs a new instance (a fresh
object identity). -/
theorem get_box_reuse_then_renew (p : ChatBoxPoolM) (user now t now2 now3 : Nat)
    (hwf : ∀ b ∈ p.boxes, b.id < p.nextBoxId)
    (hmiss : lookupLive p user = none)
    (helig : p.nextPurgeTime ≤ now2)
    (hexp : now + EXPIRES < now2) :
    (get_box p user now).1 = some ⟨p.nextBoxId, now + EXPIRES⟩ ∧
    get_box (get_box p user now).2 user t
      = (some (⟨p.nextBoxId, now + EXPIRES⟩ : ChatBoxM), (get_box p user now).2) ∧
    (purge (get_box p user now).2 now2).1 = true ∧
    (get_box (purge (get_box p user now).2 now2).2 user now3).1
      = some ⟨p.nextBoxId + 1, now3 + EXPIRES⟩ := by
  have hb1 : get_box p user now =
      (some (⟨p.nextBoxId, now + EXPIRES⟩ : ChatBoxM),
       ⟨fun u => if u = user then some p.nextBoxId else p.userMap u,
        ⟨p.nextBoxId, now + EXPIRES⟩ :: p.boxes, p.nextPurgeTime, p.nextBoxId + 1⟩) := by
    unfold get_box
    rw [hmiss]
    rfl
  have hb1b : (get_box p user now).2 =
      (⟨fun u => if u = user then some p.nextBoxId else p.userMap u,
        ⟨p.nextBoxId, now + EXPIRES⟩ :: p.boxes, p.nextPurgeTime,
        p.nextBoxId + 1⟩ : ChatBoxPoolM) := by
    rw [hb1]
  have hlook1 : lookupLive
      (⟨fun u => if u = user then some p.nextBoxId else p.userMap u,
        ⟨p.nextBoxId, now + EXPIRES⟩ :: p.boxes, p.nextPurgeTime,
        p.nextBoxId + 1⟩ : ChatBoxPoolM) user
      = some (⟨p.nextBoxId, now + EXPIRES⟩ : ChatBoxM) := by
    unfold lookupLive
    simp [List.find?]
  have hb2 : get_box
      (⟨fun u => if u = user then some p.nextBoxId else p.userMap u,
        ⟨p.nextBoxId, now + EXPIRES⟩ :: p.boxes, p.nextPurgeTime,
        p.nextBoxId + 1⟩ : ChatBoxPoolM) user t
      = (some (⟨p.nextBoxId, now + EXPIRES⟩ : ChatBoxM),
         ⟨fun u => if u = user then some p.nextBoxId else p.userMap u,
          ⟨p.nextBoxId, now + EXPIRES⟩ :: p.boxes, p.nextPurgeTime, p.nextBoxId + 1⟩) := by
    unfold get_box
    rw [hlook1]
  have hn2 : ¬ now2 <
      (⟨fun u => if u = user then some p.nextBoxId else p.userMap u,
        ⟨p.nextBoxId, now + EXPIRES⟩ :: p.boxes, p.nextPurgeTime,
        p.nextBoxId + 1⟩ : ChatBoxPoolM).nextPurgeTime := by
    show ¬ now2 < p.nextPurgeTime
    omega
  have hpur1 : (purge
      (⟨fun u => if u = user then some p.nextBoxId else p.userMap u,
        ⟨p.nextBoxId, now + EXPIRES⟩ :: p.boxes, p.nextPurgeTime,
        p.nextBoxId + 1⟩ : ChatBoxPoolM) now2).1 = true := by
    unfold purge
    rw [if_neg hn2]
  have hfilter : List.filter (fun b => !(ChatBoxM.is_expired b now2))
      ((⟨p.nextBoxId, now + EXPIRES⟩ : ChatBoxM) :: p.boxes)
      = List.filter (fun b => !(ChatBoxM.is_expired b now2)) p.boxes := by
    rw [List.filter_cons]
    simp [ChatBoxM.is_expired, hexp]
  have hpur2 : (purge
      (⟨fun u => if u = user then some p.nextBoxId else p.userMap u,
        ⟨p.nextBoxId, now + EXPIRES⟩ :: p.boxes, p.nextPurgeTime,
        p.nextBoxId + 1⟩ : ChatBoxPoolM) now2).2
      = (⟨fun u => if u = user then some p.nextBoxId else p.userMap u,
         List.filter (fun b => !(ChatBoxM.is_expired b now2)) p.boxes,
         now2 + 60, p.nextBoxId + 1⟩ : ChatBoxPoolM) := by
    unfold purge
    rw [if_neg hn2]
    show (⟨fun u => if u = user then some p.nextBoxId else p.userMap u,
          List.filter (fun b => !(ChatBoxM.is_expired b now2))
            ((⟨p.nextBoxId, now + EXPIRES⟩ : ChatBoxM) :: p.boxes),
          now2 + 60, p.nextBoxId + 1⟩ : ChatBoxPoolM) = _
    rw [hfilter]
  have hnone : List.find? (fun b => decide (b.id = p.nextBoxId))
      (List.filter (fun b => !(ChatBoxM.is_expired b now2)) p.boxes) = none := by
    apply List.find?_eq_none.mpr
    intro b hb
    have hbm : b ∈ p.boxes := List.mem_of_mem_filter hb
    have hlt := hwf b hbm
    simp only [decide_eq_true_eq]
    omega
  have hlook2 : lookupLive
      (⟨fun u => if u = user then some p.nextBoxId else p.userMap u,
        List.filter (fun b => !(ChatBoxM.is_expired b now2)) p.boxes,
        now2 + 60, p.nextBoxId + 1⟩ : ChatBoxPoolM) user = none := by
    unfold lookupLive
    show (match (if user = user then some p.nextBoxId else p.userMap user) with
          | none => none
          | some bid => List.find? (fun b => decide (b.id = bid))
              (List.filter (fun b => !(ChatBoxM.is_expired b now2)) p.boxes)) = none
    rw [if_pos rfl]
    exact hnone
  have hb3 : (get_box
      (⟨fun u => if u = user then some p.nextBoxId else p.userMap u,
        List.filter (fun b => !(ChatBoxM.is_expired b now2)) p.boxes,
        now2 + 60, p.nextBoxId + 1⟩ : ChatBoxPoolM) user now3).1
      = some (⟨p.nextBoxId + 1, now3 + EXPIRES⟩ : ChatBoxM) := by
    unfold get_box
    rw [hlook2]
    rfl
  refine ⟨?_, ?_, ?_, ?_⟩
  · rw [hb1]
  · rw [hb1b]
    exact hb2
  · rw [hb1b]
    exact hpur1
  · rw [hb1b, hpur2]
    exact hb3

/-- Witness for C9: empty pool, user 7; the box created at time 0 is reused
at time 5; it expires by time 36001, is purged, and the next lookup at time
40000 constructs a box with the next object id. -/
theorem get_box_reuse_then_renew_witness :
    (get_box ⟨fun _ => none, [], 0, 0⟩ 7 0).1 = some ⟨0, 0 + EXPIRES⟩ ∧
    get_box (get_box ⟨fun _ => none, [], 0, 0⟩ 7 0).2 7 5
      = (some (⟨0, 0 + EXPIRES⟩ : ChatBoxM), (get_box ⟨fun _ => none, [], 0, 0⟩ 7 0).2) ∧
    (purge (get_box ⟨fun _ => none, [], 0, 0⟩ 7 0).2 36001).1 = true ∧
    (get_box (purge (get_box ⟨fun _ => none, [], 0, 0⟩ 7 0).2 36001).2 7 40000).1
      = some ⟨0 + 1, 40000 + EXPIRES⟩ :=
  get_box_reuse_then_renew ⟨fun _ => none, [], 0, 0⟩ 7 0 5 36001 40000
    (fun b hb => absurd hb (List.not_mem_nil b)) rfl (by decide) (by decide)

end FakeOpen
